import Mathlib

/-!
# PulseGenerator

A shallow embedding of `src/pulseGenerator.cpp`: square-wave generation by a
modulo operation on the free-running `micros()` counter.

* `uint32_t` values are natural numbers below `2 ^ 32`; the only operation of
  the program that can leave that range, the subtraction `micros() - phase`,
  is reduced modulo `2 ^ 32` explicitly (`sub32`).
* `x % 0` is undefined behaviour in C++; the embedding returns `none` there.
* Every call of `micros()` is a reading of its own: a function that calls it
  `n` times takes `n` readings as arguments.
* The `static bool chn1, chn2` of `buzzer` are passed in and out explicitly.
-/

namespace PulseGenerator

/-- The two levels `digitalWrite` accepts. -/
inductive Level where
  | LOW
  | HIGH
  deriving DecidableEq, Repr

open Level

/-- One call `digitalWrite(pin, level)`. -/
structure Write where
  pin : Nat
  level : Level
  deriving DecidableEq, Repr

/-- Number of values of a `uint32_t`. -/
def uint32Size : Nat := 2 ^ 32

/-- The subtraction `a - b` of two `uint32_t` values, which wraps around. -/
def sub32 (a b : Nat) : Nat := (a + uint32Size - b % uint32Size) % uint32Size

/-- The one-line generator of the header comment and of Examples 1 and 2:
`(micros() - phase) % period < pulsewidth ? HIGH : LOW`, the level handed to
`digitalWrite`. `micros` is the value the call `micros()` returns. -/
def pulseExpr (micros phase period pulsewidth : Nat) : Option Level :=
  if period = 0 then none
  else some (if sub32 micros phase % period < pulsewidth then HIGH else LOW)

/-- The function `void pulse(bool &chn, uint32_t period, uint32_t pulseWidth)`:
`chn = micros() % period < pulseWidth ? true : false;`.
`micros` is the value the call `micros()` returns, `chn` the value the
referenced variable holds on entry; the result is the value it holds on
exit. -/
def pulse (micros : Nat) (_chn : Bool) (period pulseWidth : Nat) : Option Bool :=
  if period = 0 then none
  else some (if micros % period < pulseWidth then true else false)

/-- The `static bool chn1, chn2;` of `buzzer`. -/
structure Channels where
  chn1 : Bool
  chn2 : Bool
  deriving DecidableEq, Repr

/-- The function `void buzzer(uint8_t pin, uint32_t per1, uint32_t pw1,
uint32_t per2, uint32_t pw2)`. `micros1` and `micros2` are the values `micros()`
returns inside the first and the second call of `pulse`; `st` holds the two
static booleans on entry. The result is the statics on exit and the
`digitalWrite` performed. -/
def buzzer (micros1 micros2 : Nat) (st : Channels) (pin per1 pw1 per2 pw2 : Nat) :
    Option (Channels × Write) :=
  match pulse micros1 st.chn1 per1 pw1 with
  | none => none
  | some chn1 =>
    match pulse micros2 st.chn2 per2 pw2 with
    | none => none
    | some chn2 =>
      some (⟨chn1, chn2⟩, ⟨pin, if (chn1 && chn2) then HIGH else LOW⟩)

/-! ### Example 1: two pulse trains with different frequencies -/

namespace Example1

def period0 : Nat := 2000000
def period1 : Nat := 1000000
def pulsewidth0 : Nat := 500000
def pulsewidth1 : Nat := 300000

def phase_0 : Nat := 0
def phase_1 : Nat := 100000

/-- The body of `loop()`: one `digitalWrite` per pin, each with a `micros()`
reading of its own. The pin numbers `D3`, `D4` come from the board header. -/
def loop (D3 D4 micros0 micros1 : Nat) : Option (List Write) :=
  match pulseExpr micros0 phase_0 period0 pulsewidth0 with
  | none => none
  | some l0 =>
    match pulseExpr micros1 phase_1 period1 pulsewidth1 with
    | none => none
    | some l1 => some [⟨D3 % 256, l0⟩, ⟨D4 % 256, l1⟩]

end Example1

/-! ### Example 2: three phase-shifted pulse trains -/

namespace Example2

def period : Nat := 3000000
def pulsewidth : Nat := 1500000

def phase_0 : Nat := 0
def phase_1 : Nat := (period / 3) % uint32Size
def phase_2 : Nat := ((2 * period) % uint32Size / 3) % uint32Size

/-- The body of `loop()`: one `digitalWrite` per pin, each with a `micros()`
reading of its own. The pin numbers `D3`, `D4`, `D5` come from the board
header. -/
def loop (D3 D4 D5 micros0 micros1 micros2 : Nat) : Option (List Write) :=
  match pulseExpr micros0 phase_0 period pulsewidth with
  | none => none
  | some l0 =>
    match pulseExpr micros1 phase_1 period pulsewidth with
    | none => none
    | some l1 =>
      match pulseExpr micros2 phase_2 period pulsewidth with
      | none => none
      | some l2 => some [⟨D3 % 256, l0⟩, ⟨D4 % 256, l1⟩, ⟨D5 % 256, l2⟩]

end Example2

/-! ### Example 3: two combined pulse trains at one pin (the active example) -/

namespace Example3

/-- The constant `const uint8_t PIN_BUZZER = D4;`, `D4` from the board header. -/
def PIN_BUZZER (D4 : Nat) : Nat := D4 % 256

/-- The body of `loop()`: `buzzer(PIN_BUZZER, 250000, 50000, 3000000, 1000000);`. -/
def loop (D4 micros1 micros2 : Nat) (st : Channels) : Option (Channels × Write) :=
  buzzer micros1 micros2 st (PIN_BUZZER D4) 250000 50000 3000000 1000000

end Example3

/-! ## General facts about the embedding -/

theorem uint32Size_eq : uint32Size = 4294967296 := by
  norm_num [uint32Size]

theorem sub32_lt (a b : Nat) : sub32 a b < uint32Size := by
  unfold sub32
  exact Nat.mod_lt _ (by norm_num [uint32Size])

theorem sub32_zero (a : Nat) (ha : a < uint32Size) : sub32 a 0 = a := by
  unfold sub32
  rw [uint32Size_eq] at *
  omega

theorem pulse_eq_some (t : Nat) (chn : Bool) (p w : Nat) (hp : 0 < p) :
    pulse t chn p w = some (decide (t % p < w)) := by
  unfold pulse
  rw [if_neg (Nat.pos_iff_ne_zero.mp hp)]
  by_cases h : t % p < w <;> simp [h]

theorem pulse_eq_none (t : Nat) (chn : Bool) (w : Nat) : pulse t chn 0 w = none := by
  simp [pulse]

theorem pulseExpr_eq_some (t ph p w : Nat) (hp : 0 < p) :
    pulseExpr t ph p w = some (if sub32 t ph % p < w then HIGH else LOW) := by
  unfold pulseExpr
  rw [if_neg (Nat.pos_iff_ne_zero.mp hp)]

theorem buzzer_eq_some (t1 t2 : Nat) (st : Channels) (pin per1 pw1 per2 pw2 : Nat)
    (h1 : 0 < per1) (h2 : 0 < per2) :
    buzzer t1 t2 st pin per1 pw1 per2 pw2 =
      some (⟨decide (t1 % per1 < pw1), decide (t2 % per2 < pw2)⟩,
        ⟨pin, if (decide (t1 % per1 < pw1) && decide (t2 % per2 < pw2)) then HIGH else LOW⟩) := by
  unfold buzzer
  rw [pulse_eq_some t1 st.chn1 per1 pw1 h1, pulse_eq_some t2 st.chn2 per2 pw2 h2]

/-! ## The pulse evaluator -/

/-- C1: for every 32-bit counter value `t`, every period `p > 0` and every pulse
width `w` with `0 ≤ w ≤ p`, `pulse` (with `micros()` returning `t`) returns, and
the value it leaves in `chn` is `true` if and only if `t % p < w`. -/
theorem pulse_high_iff (t p w : Nat) (chn : Bool) (_ht : t < uint32Size)
    (hp : 0 < p) (_hp32 : p < uint32Size) (_hw : w ≤ p) :
    ∃ b, pulse t chn p w = some b ∧ (b = true ↔ t % p < w) := by
  refine ⟨decide (t % p < w), pulse_eq_some t chn p w hp, ?_⟩
  simp

theorem pulse_high_iff_witness :
    ∃ b, pulse 1499999 false 1000000 500000 = some b ∧
      (b = true ↔ 1499999 % 1000000 < 500000) :=
  pulse_high_iff 1499999 1000000 500000 false (by norm_num [uint32Size]) (by decide)
    (by norm_num [uint32Size]) (by decide)

/-- C3: the output is periodic with period `p`: for every period `p > 0`, every
pulse width `w` and every counter value `t` such that `t + p` is again a value
of the 32-bit counter, `pulse` computes the same channel value at `t + p` as at
`t`, and it does compute one. -/
theorem pulse_periodic (t p w : Nat) (chn : Bool) (hp : 0 < p)
    (_hw32 : w < uint32Size) (_htp : t + p < uint32Size) :
    pulse (t + p) chn p w = pulse t chn p w ∧ (pulse t chn p w).isSome = true := by
  rw [pulse_eq_some (t + p) chn p w hp, pulse_eq_some t chn p w hp, Nat.add_mod_right]
  simp

theorem pulse_periodic_witness :
    pulse (400000 + 1000000) true 1000000 500000 = pulse 400000 true 1000000 500000 ∧
      (pulse 400000 true 1000000 500000).isSome = true :=
  pulse_periodic 400000 1000000 500000 true (by decide) (by norm_num [uint32Size])
    (by norm_num [uint32Size])

/-- C4: phase shift: for all 32-bit `t` and `phase`, every period `p > 0` and
every pulse width `w`, the phased expression `(t - phase) % p < w` (unsigned
32-bit subtraction) yields a level, and it is the level the expression with
phase `0` yields at the counter value `t - phase`. -/
theorem pulseExpr_phase_shift (t phase p w : Nat) (_ht : t < uint32Size)
    (_hph : phase < uint32Size) (hp : 0 < p) :
    pulseExpr t phase p w = pulseExpr (sub32 t phase) 0 p w ∧
      (pulseExpr t phase p w).isSome = true := by
  rw [pulseExpr_eq_some t phase p w hp, pulseExpr_eq_some (sub32 t phase) 0 p w hp,
    sub32_zero (sub32 t phase) (sub32_lt t phase)]
  simp

theorem pulseExpr_phase_shift_witness :
    pulseExpr 50000 100000 1000000 300000 =
        pulseExpr (sub32 50000 100000) 0 1000000 300000 ∧
      (pulseExpr 50000 100000 1000000 300000).isSome = true :=
  pulseExpr_phase_shift 50000 100000 1000000 300000 (by norm_num [uint32Size])
    (by norm_num [uint32Size]) (by decide)

/-- C5: the output is high for the first `w` microseconds of every cycle of `p`
microseconds and low otherwise: for `p > 0`, `w ≤ p`, cycle index `k` and
offset `r < p` with `k * p + r` a value of the 32-bit counter, `pulse` at
`k * p + r` leaves `true` in `chn` when `r < w` and `false` when `w ≤ r`. With
period `1000000` and pulse width `500000` it leaves `true` when
`t % 1000000` is in `[0, 500000)` and `false` when it is in
`[500000, 1000000)`. -/
theorem pulse_cycle (p w k r : Nat) (chn : Bool) (hp : 0 < p) (_hw : w ≤ p)
    (hr : r < p) (_hk : k * p + r < uint32Size) :
    (pulse (k * p + r) chn p w = some true ↔ r < w) ∧
    (pulse (k * p + r) chn p w = some false ↔ w ≤ r) ∧
    (∀ t, t < uint32Size →
      (pulse t chn 1000000 500000 = some true ↔ t % 1000000 < 500000) ∧
      (pulse t chn 1000000 500000 = some false ↔
        500000 ≤ t % 1000000 ∧ t % 1000000 < 1000000)) := by
  have hmod : (k * p + r) % p = r := by
    rw [Nat.add_comm, Nat.add_mul_mod_self_right, Nat.mod_eq_of_lt hr]
  have hlt : ∀ t : Nat, t % 1000000 < 1000000 := fun t => Nat.mod_lt t (by decide)
  refine ⟨?_, ?_, ?_⟩
  · rw [pulse_eq_some _ chn p w hp, hmod]
    simp
  · rw [pulse_eq_some _ chn p w hp, hmod]
    simp
  · intro t _
    rw [pulse_eq_some t chn 1000000 500000 (by decide)]
    have := hlt t
    simp [this]

theorem pulse_cycle_witness :
    (pulse (4294 * 1000000 + 499999) false 1000000 500000 = some true ↔
      499999 < 500000) ∧
    (pulse (4294 * 1000000 + 499999) false 1000000 500000 = some false ↔
      500000 ≤ 499999) ∧
    (∀ t, t < uint32Size →
      (pulse t false 1000000 500000 = some true ↔ t % 1000000 < 500000) ∧
      (pulse t false 1000000 500000 = some false ↔
        500000 ≤ t % 1000000 ∧ t % 1000000 < 1000000)) :=
  pulse_cycle 1000000 500000 4294 499999 false (by decide) (by decide) (by decide)
    (by norm_num [uint32Size])

/-- C6: boundary: for every period `p > 0`, pulse width `w ≤ p` and 32-bit
counter value `t`, the output is high when `t % p = w - 1` (over the integers,
so never for `w = 0`) and low when `t % p = w`: the pulse covers exactly the
offsets `0 .. w - 1`. -/
theorem pulse_boundary (t p w : Nat) (chn : Bool) (_ht : t < uint32Size)
    (hp : 0 < p) (_hp32 : p < uint32Size) (_hw : w ≤ p) :
    (((t % p : Nat) : Int) = (w : Int) - 1 → pulse t chn p w = some true) ∧
    (t % p = w → pulse t chn p w = some false) := by
  rw [pulse_eq_some t chn p w hp]
  constructor
  · intro h
    have : t % p < w := by omega
    simp [this]
  · intro h
    simp [h]

theorem pulse_boundary_witness :
    pulse 3000002 false 1000000 3 = some true ∧
      pulse 3000003 false 1000000 3 = some false :=
  ⟨(pulse_boundary 3000002 1000000 3 false (by norm_num [uint32Size]) (by decide)
      (by norm_num [uint32Size]) (by decide)).1 (by decide),
   (pulse_boundary 3000003 1000000 3 false (by norm_num [uint32Size]) (by decide)
      (by norm_num [uint32Size]) (by decide)).2 (by decide)⟩

/-! ## The combinator `buzzer` -/

theorem level_high_iff (a b : Prop) [Decidable a] [Decidable b] :
    (if (decide a && decide b) then HIGH else LOW) = HIGH ↔ a ∧ b := by
  by_cases ha : a <;> by_cases hb : b <;> simp [ha, hb]

theorem level_low_iff (a b : Prop) [Decidable a] [Decidable b] :
    (if (decide a && decide b) then HIGH else LOW) = LOW ↔ ¬ (a ∧ b) := by
  by_cases ha : a <;> by_cases hb : b <;> simp [ha, hb]

/-- C2: for every 32-bit counter value `t` read by both calls of `pulse`, all
periods `per1, per2 > 0` and all pulse widths, `buzzer` writes to `pin`, and the
level it writes is `HIGH` if and only if both pulse trains evaluated at `t` are
high; the level follows the AND truth table over the four combinations of the
two channel states it has just computed. -/
theorem buzzer_and (t pin per1 pw1 per2 pw2 : Nat) (st : Channels)
    (_ht : t < uint32Size) (h1 : 0 < per1) (h2 : 0 < per2) :
    ∃ st' wr, buzzer t t st pin per1 pw1 per2 pw2 = some (st', wr) ∧
      wr.pin = pin ∧
      pulse t st.chn1 per1 pw1 = some st'.chn1 ∧
      pulse t st.chn2 per2 pw2 = some st'.chn2 ∧
      (wr.level = HIGH ↔
        pulse t st.chn1 per1 pw1 = some true ∧ pulse t st.chn2 per2 pw2 = some true) ∧
      wr.level =
        (match st'.chn1, st'.chn2 with
          | true, true => HIGH
          | true, false => LOW
          | false, true => LOW
          | false, false => LOW) := by
  refine ⟨_, _, buzzer_eq_some t t st pin per1 pw1 per2 pw2 h1 h2, rfl,
    pulse_eq_some t _ per1 pw1 h1, pulse_eq_some t _ per2 pw2 h2, ?_, ?_⟩
  · rw [pulse_eq_some t _ per1 pw1 h1, pulse_eq_some t _ per2 pw2 h2, level_high_iff]
    simp
  · by_cases ha : t % per1 < pw1 <;> by_cases hb : t % per2 < pw2 <;> simp [ha, hb]

theorem buzzer_and_witness :
    ∃ st' wr, buzzer 3200000 3200000 ⟨false, false⟩ 2 250000 50000 3000000 1000000 =
        some (st', wr) ∧
      wr.pin = 2 ∧
      pulse 3200000 false 250000 50000 = some st'.chn1 ∧
      pulse 3200000 false 3000000 1000000 = some st'.chn2 ∧
      (wr.level = HIGH ↔
        pulse 3200000 false 250000 50000 = some true ∧
          pulse 3200000 false 3000000 1000000 = some true) ∧
      wr.level =
        (match st'.chn1, st'.chn2 with
          | true, true => HIGH
          | true, false => LOW
          | false, true => LOW
          | false, false => LOW) :=
  buzzer_and 3200000 2 250000 50000 3000000 1000000 ⟨false, false⟩
    (by norm_num [uint32Size]) (by decide) (by decide)

/-- C7: with the parameters the program runs, `buzzer(PIN_BUZZER, 250000, 50000,
3000000, 1000000)`, the output is four pulses in one second followed by two
seconds of pause: for every 32-bit counter value `t` read by both calls of
`pulse`, `loop` writes `HIGH` to the buzzer pin if and only if `t % 3000000`
lies in `[k * 250000, k * 250000 + 50000)` for one of `k = 0, 1, 2, 3`, and it
writes `LOW` whenever `t % 3000000` lies in `[1000000, 3000000)`. -/
theorem loop_four_pulses (D4 t : Nat) (st : Channels) (_ht : t < uint32Size) :
    ∃ st' wr, Example3.loop D4 t t st = some (st', wr) ∧
      wr.pin = Example3.PIN_BUZZER D4 ∧
      (wr.level = HIGH ↔
        ∃ k, k < 4 ∧ k * 250000 ≤ t % 3000000 ∧ t % 3000000 < k * 250000 + 50000) ∧
      (1000000 ≤ t % 3000000 → wr.level = LOW) := by
  refine ⟨_, _, buzzer_eq_some t t st _ 250000 50000 3000000 1000000 (by decide)
    (by decide), rfl, ?_, ?_⟩
  · show (if (decide (t % 250000 < 50000) && decide (t % 3000000 < 1000000))
      then HIGH else LOW) = HIGH ↔ _
    rw [level_high_iff]
    constructor
    · rintro ⟨ha, hb⟩
      exact ⟨t % 3000000 / 250000, by omega, by omega, by omega⟩
    · rintro ⟨k, hk, hlo, hhi⟩
      constructor <;> omega
  · intro h
    show (if (decide (t % 250000 < 50000) && decide (t % 3000000 < 1000000))
      then HIGH else LOW) = LOW
    rw [level_low_iff]
    omega

theorem loop_four_pulses_witness :
    (∃ st' wr, Example3.loop 2 3760000 3760000 ⟨true, false⟩ = some (st', wr) ∧
      wr.pin = Example3.PIN_BUZZER 2 ∧
      (wr.level = HIGH ↔
        ∃ k, k < 4 ∧ k * 250000 ≤ 3760000 % 3000000 ∧
          3760000 % 3000000 < k * 250000 + 50000) ∧
      (1000000 ≤ 3760000 % 3000000 → wr.level = LOW)) ∧
    (∃ st' wr, Example3.loop 2 4000000 4000000 ⟨true, false⟩ = some (st', wr) ∧
      wr.pin = Example3.PIN_BUZZER 2 ∧
      (wr.level = HIGH ↔
        ∃ k, k < 4 ∧ k * 250000 ≤ 4000000 % 3000000 ∧
          4000000 % 3000000 < k * 250000 + 50000) ∧
      (1000000 ≤ 4000000 % 3000000 → wr.level = LOW)) :=
  ⟨loop_four_pulses 2 3760000 ⟨true, false⟩ (by norm_num [uint32Size]),
   loop_four_pulses 2 4000000 ⟨true, false⟩ (by norm_num [uint32Size])⟩

/-! ## Error conditions and state -/

theorem buzzer_eq_none_left (t1 t2 : Nat) (st : Channels) (pin pw1 per2 pw2 : Nat) :
    buzzer t1 t2 st pin 0 pw1 per2 pw2 = none := by
  simp [buzzer, pulse]

theorem buzzer_eq_none_right (t1 t2 : Nat) (st : Channels) (pin per1 pw1 pw2 : Nat) :
    buzzer t1 t2 st pin per1 pw1 0 pw2 = none := by
  unfold buzzer
  cases pulse t1 st.chn1 per1 pw1 <;> simp [pulse]

/-- C8: the evaluator has no error condition other than a zero period: `pulse`
yields a boolean exactly when its period is positive and fails (modulo by zero)
exactly when its period is `0`, whatever the counter value, the pulse width and
the previous channel value; `buzzer` performs its write exactly when both
periods are positive and fails exactly when one of them is `0`. -/
theorem no_error_but_zero_period (t t' p w pin per1 pw1 per2 pw2 : Nat) (chn : Bool)
    (st : Channels) :
    ((∃ b, pulse t chn p w = some b) ↔ 0 < p) ∧
    (pulse t chn p w = none ↔ p = 0) ∧
    ((∃ r, buzzer t t' st pin per1 pw1 per2 pw2 = some r) ↔ 0 < per1 ∧ 0 < per2) ∧
    (buzzer t t' st pin per1 pw1 per2 pw2 = none ↔ per1 = 0 ∨ per2 = 0) := by
  refine ⟨?_, ?_, ?_, ?_⟩
  · rcases Nat.eq_zero_or_pos p with h | h
    · subst h
      simp [pulse_eq_none]
    · simp [pulse_eq_some t chn p w h, h]
  · rcases Nat.eq_zero_or_pos p with h | h
    · subst h
      simp [pulse_eq_none]
    · simp [pulse_eq_some t chn p w h, Nat.pos_iff_ne_zero.mp h]
  · rcases Nat.eq_zero_or_pos per1 with h1 | h1
    · subst h1
      simp [buzzer_eq_none_left]
    · rcases Nat.eq_zero_or_pos per2 with h2 | h2
      · subst h2
        simp [buzzer_eq_none_right]
      · simp [buzzer_eq_some t t' st pin per1 pw1 per2 pw2 h1 h2, h1, h2]
  · rcases Nat.eq_zero_or_pos per1 with h1 | h1
    · subst h1
      simp [buzzer_eq_none_left]
    · rcases Nat.eq_zero_or_pos per2 with h2 | h2
      · subst h2
        simp [buzzer_eq_none_right]
      · simp [buzzer_eq_some t t' st pin per1 pw1 per2 pw2 h1 h2,
          Nat.pos_iff_ne_zero.mp h1, Nat.pos_iff_ne_zero.mp h2]

/-- C9: the two static channel booleans carry no history: for all prior values
of `chn1` and `chn2`, all timer readings and all parameters with
`per1, per2 > 0`, `buzzer` performs the same write and leaves the same new
`chn1`, `chn2`, both determined by the timer readings and the parameters alone;
and `pulse` overwrites `chn` whatever its previous value. -/
theorem buzzer_history_free (t1 t2 pin per1 pw1 per2 pw2 : Nat) (st st' : Channels)
    (h1 : 0 < per1) (h2 : 0 < per2) :
    buzzer t1 t2 st pin per1 pw1 per2 pw2 = buzzer t1 t2 st' pin per1 pw1 per2 pw2 ∧
    buzzer t1 t2 st pin per1 pw1 per2 pw2 =
      some (⟨decide (t1 % per1 < pw1), decide (t2 % per2 < pw2)⟩,
        ⟨pin, if (decide (t1 % per1 < pw1) && decide (t2 % per2 < pw2))
          then HIGH else LOW⟩) ∧
    (∀ chn chn' : Bool, pulse t1 chn per1 pw1 = pulse t1 chn' per1 pw1 ∧
      pulse t1 chn per1 pw1 = some (decide (t1 % per1 < pw1))) := by
  refine ⟨?_, buzzer_eq_some t1 t2 st pin per1 pw1 per2 pw2 h1 h2, ?_⟩
  · rw [buzzer_eq_some t1 t2 st pin per1 pw1 per2 pw2 h1 h2,
      buzzer_eq_some t1 t2 st' pin per1 pw1 per2 pw2 h1 h2]
  · intro chn chn'
    rw [pulse_eq_some t1 chn per1 pw1 h1, pulse_eq_some t1 chn' per1 pw1 h1]
    exact ⟨rfl, rfl⟩

theorem buzzer_history_free_witness :
    buzzer 10000 10000 ⟨false, true⟩ 2 250000 50000 3000000 1000000 =
      buzzer 10000 10000 ⟨true, false⟩ 2 250000 50000 3000000 1000000 ∧
    buzzer 10000 10000 ⟨false, true⟩ 2 250000 50000 3000000 1000000 =
      some (⟨decide (10000 % 250000 < 50000), decide (10000 % 3000000 < 1000000)⟩,
        ⟨2, if (decide (10000 % 250000 < 50000) && decide (10000 % 3000000 < 1000000))
          then HIGH else LOW⟩) ∧
    (∀ chn chn' : Bool, pulse 10000 chn 250000 50000 = pulse 10000 chn' 250000 50000 ∧
      pulse 10000 chn 250000 50000 = some (decide (10000 % 250000 < 50000))) :=
  buzzer_history_free 10000 10000 2 250000 50000 3000000 1000000 ⟨false, true⟩
    ⟨true, false⟩ (by decide) (by decide)

/-! ## The three-phase generator of Example 2 -/

theorem phase_1_eq : Example2.phase_1 = 1000000 := by decide

theorem phase_2_eq : Example2.phase_2 = 2000000 := by decide

/-- From its phase onward every output of Example 2 is the phase-0 waveform
delayed by the phase: the 32-bit expression agrees with the modulo taken over
the integers. -/
theorem pulseExpr_eq_int_mod_of_le (t phase p w : Nat) (ht : t < uint32Size)
    (hp : 0 < p) (hle : phase ≤ t) :
    pulseExpr t phase p w = some HIGH ↔ ((t : Int) - (phase : Int)) % (p : Int) < (w : Int) := by
  have hsub : sub32 t phase = t - phase := by
    unfold sub32
    rw [uint32Size_eq] at *
    omega
  rw [pulseExpr_eq_some t phase p w hp, hsub]
  have hcast : ((t : Int) - (phase : Int)) % (p : Int) = (((t - phase) % p : Nat) : Int) := by
    rw [← Int.ofNat_sub hle]
    norm_cast
  rw [hcast, Int.ofNat_lt]
  by_cases h : (t - phase) % p < w <;> simp [h]

/-- Before its phase the phase-1 output of Example 2 is high exactly on
`[0, 532704)`. -/
theorem phase_1_before_phase (t : Nat) (ht : t < 1000000) :
    pulseExpr t Example2.phase_1 Example2.period Example2.pulsewidth = some HIGH ↔
      t < 532704 := by
  rw [pulseExpr_eq_some t _ _ _ (by decide), phase_1_eq]
  have hsub : sub32 t 1000000 % Example2.period < Example2.pulsewidth ↔ t < 532704 := by
    unfold sub32 Example2.period Example2.pulsewidth
    rw [uint32Size_eq]
    omega
  by_cases h : t < 532704 <;> simp [hsub, h]

/-- Before its phase the phase-2 output of Example 2 is high exactly on
`[32704, 1532704)`. -/
theorem phase_2_before_phase (t : Nat) (ht : t < 2000000) :
    pulseExpr t Example2.phase_2 Example2.period Example2.pulsewidth = some HIGH ↔
      32704 ≤ t ∧ t < 1532704 := by
  rw [pulseExpr_eq_some t _ _ _ (by decide), phase_2_eq]
  have hsub : sub32 t 2000000 % Example2.period < Example2.pulsewidth ↔
      32704 ≤ t ∧ t < 1532704 := by
    unfold sub32 Example2.period Example2.pulsewidth
    rw [uint32Size_eq]
    omega
  by_cases h : 32704 ≤ t ∧ t < 1532704 <;> simp [hsub, h]

/-- C10, the code at a counter value before the phase: `100000` microseconds
after the counter started, the phase-1 expression of Example 2 yields `HIGH`
although `(100000 - phase_1) mod period` over the integers is not below
`pulsewidth` (the timing diagram draws phase 1 low on `[0, 1000000)`), and at
counter value `0` the phase-2 expression yields `LOW` although
`(0 - phase_2) mod period` over the integers is below `pulsewidth` (the
diagram draws phase 2 high on `[0, 500000)`). At `100000` all three outputs
of `loop` are `HIGH` at once. -/
theorem three_phase_startup :
    pulseExpr 100000 Example2.phase_1 Example2.period Example2.pulsewidth = some HIGH ∧
    ¬ (((100000 : Int) - (Example2.phase_1 : Int)) % (Example2.period : Int)
        < (Example2.pulsewidth : Int)) ∧
    pulseExpr 0 Example2.phase_2 Example2.period Example2.pulsewidth = some LOW ∧
    (((0 : Int) - (Example2.phase_2 : Int)) % (Example2.period : Int)
        < (Example2.pulsewidth : Int)) ∧
    Example2.loop 0 2 14 100000 100000 100000 = some [⟨0, HIGH⟩, ⟨2, HIGH⟩, ⟨14, HIGH⟩] := by
  refine ⟨by decide, ?_, by decide, ?_, by decide⟩
  · rw [phase_1_eq]
    norm_num [Example2.period, Example2.pulsewidth]
  · rw [phase_2_eq]
    norm_num [Example2.period, Example2.pulsewidth]

/-! ## Limits: smallest period, counter overflow -/

theorem pulse_period_one (t : Nat) (chn : Bool) (w : Nat) :
    pulse t chn 1 w = some (decide (0 < w)) := by
  rw [pulse_eq_some t chn 1 w (by decide), Nat.mod_one]

/-- C11: the minimal period is 2 with a minimal pulse width of 1: with period
`1` (and with any period below `2`) the output of `pulse` is the same at all
counter values, for every pulse width, and so it is with pulse width `0` for
every period; with period `2` and pulse width `1` the output is high at even
and low at odd counter values, and it changes at every tick of the 32-bit
counter, the tick from `2 ^ 32 - 1` to `0` included. -/
theorem minimal_period (chn : Bool) :
    (∀ w t t', pulse t chn 1 w = pulse t' chn 1 w) ∧
    (∀ p, p < 2 → ∀ w t t', pulse t chn p w = pulse t' chn p w) ∧
    (∀ p t t', pulse t chn p 0 = pulse t' chn p 0) ∧
    (∀ t, t < uint32Size →
      (pulse t chn 2 1 = some true ↔ t % 2 = 0) ∧
      (pulse t chn 2 1 = some false ↔ t % 2 = 1) ∧
      pulse ((t + 1) % uint32Size) chn 2 1 ≠ pulse t chn 2 1) := by
  refine ⟨?_, ?_, ?_, ?_⟩
  · intro w t t'
    rw [pulse_period_one, pulse_period_one]
  · intro p hp w t t'
    have h : p = 0 ∨ p = 1 := by omega
    rcases h with h | h
    · subst h
      rw [pulse_eq_none, pulse_eq_none]
    · subst h
      rw [pulse_period_one, pulse_period_one]
  · intro p t t'
    rcases Nat.eq_zero_or_pos p with h | h
    · subst h
      rw [pulse_eq_none, pulse_eq_none]
    · rw [pulse_eq_some t chn p 0 h, pulse_eq_some t' chn p 0 h]
      simp
  · intro t _
    rw [pulse_eq_some t chn 2 1 (by decide), pulse_eq_some _ chn 2 1 (by decide)]
    have hwrap : (t + 1) % uint32Size % 2 = (t + 1) % 2 :=
      Nat.mod_mod_of_dvd _ (by norm_num [uint32Size])
    rw [hwrap]
    have h2 : t % 2 = 0 ∨ t % 2 = 1 := by omega
    rcases h2 with h | h
    · have h' : (t + 1) % 2 = 1 := by omega
      simp [h, h']
    · have h' : (t + 1) % 2 = 0 := by omega
      simp [h, h']

theorem minimal_period_witness :
    pulse 7 false 1 5 = pulse 8 false 1 5 ∧
    pulse 7 false 0 5 = pulse 8 false 0 5 ∧
    pulse 7 false 9 0 = pulse 8 false 9 0 ∧
    (pulse 4294967295 false 2 1 = some true ↔ 4294967295 % 2 = 0) ∧
    (pulse 4294967295 false 2 1 = some false ↔ 4294967295 % 2 = 1) ∧
    pulse ((4294967295 + 1) % uint32Size) false 2 1 ≠ pulse 4294967295 false 2 1 :=
  ⟨(minimal_period false).1 5 7 8,
   (minimal_period false).2.1 0 (by decide) 5 7 8,
   (minimal_period false).2.2.1 9 7 8,
   (minimal_period false).2.2.2 4294967295 (by norm_num [uint32Size])⟩

/-- C12: counter overflow is glitch-free exactly for the periods that divide
`2 ^ 32`: for a 32-bit period `p > 0` that divides `2 ^ 32`, every pulse width
and every 32-bit `t`, `pulse` at the wrapped counter value
`(t + p) % 2 ^ 32` computes what it computes at `t`; for a 32-bit period
`p > 0` that does not divide `2 ^ 32` there are a pulse width `w ≤ p` and a
32-bit `t` at which the two differ (high after the step, low before it). -/
theorem overflow_glitch_free_iff (p : Nat) (chn : Bool) (hp : 0 < p)
    (hp32 : p < uint32Size) :
    (p ∣ uint32Size → ∀ w t, t < uint32Size →
      pulse ((t + p) % uint32Size) chn p w = pulse t chn p w) ∧
    (¬ p ∣ uint32Size → ∃ w t, w ≤ p ∧ t < uint32Size ∧
      pulse ((t + p) % uint32Size) chn p w = some true ∧
      pulse t chn p w = some false) := by
  constructor
  · intro hdvd w t _
    rw [pulse_eq_some _ chn p w hp, pulse_eq_some t chn p w hp,
      Nat.mod_mod_of_dvd _ hdvd, Nat.add_mod_right]
  · intro hndvd
    refine ⟨1, uint32Size - p, hp, by omega, ?_, ?_⟩
    · have hwrap : (uint32Size - p + p) % uint32Size = 0 := by
        rw [Nat.sub_add_cancel (Nat.le_of_lt hp32), Nat.mod_self]
      rw [hwrap, pulse_eq_some 0 chn p 1 hp]
      simp
    · rw [pulse_eq_some _ chn p 1 hp]
      have hne : (uint32Size - p) % p ≠ 0 := by
        intro h0
        apply hndvd
        have h1 : p ∣ uint32Size - p := Nat.dvd_of_mod_eq_zero h0
        have h2 : p ∣ uint32Size - p + p := Nat.dvd_add h1 (Nat.dvd_refl p)
        rwa [Nat.sub_add_cancel (Nat.le_of_lt hp32)] at h2
      have : ¬ (uint32Size - p) % p < 1 := by omega
      simp [this]

theorem overflow_glitch_free_iff_witness :
    (∀ w t, t < uint32Size →
      pulse ((t + 4) % uint32Size) false 4 w = pulse t false 4 w) ∧
    (∃ w t, w ≤ 3000000 ∧ t < uint32Size ∧
      pulse ((t + 3000000) % uint32Size) false 3000000 w = some true ∧
      pulse t false 3000000 w = some false) :=
  ⟨(overflow_glitch_free_iff 4 false (by decide) (by norm_num [uint32Size])).1
      (by norm_num [uint32Size]),
   (overflow_glitch_free_iff 3000000 false (by decide) (by norm_num [uint32Size])).2
      (by norm_num [uint32Size])⟩

/-! ## Duty cycle, combined period, degenerate pulse widths -/

theorem count_mod_lt (p w : Nat) (hw : w ≤ p) : Nat.count (fun t => t % p < w) p = w := by
  rw [Nat.count_eq_card_filter_range]
  have hset : (Finset.range p).filter (fun t => t % p < w) = Finset.range w := by
    ext x
    simp only [Finset.mem_filter, Finset.mem_range]
    constructor
    · rintro ⟨hx, hxw⟩
      rwa [Nat.mod_eq_of_lt hx] at hxw
    · intro hx
      have hxp : x < p := Nat.lt_of_lt_of_le hx hw
      exact ⟨hxp, by rwa [Nat.mod_eq_of_lt hxp]⟩
  rw [hset, Finset.card_range]

/-- C13: duty cycle: for every period `p > 0`, every pulse width `w ≤ p` and
every start value `t0` with `t0 + p ≤ 2 ^ 32`, exactly `w` of the `p`
consecutive counter values `t0, t0 + 1, ..., t0 + p - 1` make `pulse` leave
`true` in `chn`, wherever in the cycle the window starts. -/
theorem duty_cycle (p w t0 : Nat) (chn : Bool) (hp : 0 < p) (hw : w ≤ p)
    (_ht0 : t0 + p ≤ uint32Size) :
    ((Finset.Ico t0 (t0 + p)).filter (fun t => pulse t chn p w = some true)).card = w := by
  have hpred : (Finset.Ico t0 (t0 + p)).filter (fun t => pulse t chn p w = some true) =
      (Finset.Ico t0 (t0 + p)).filter (fun t => t % p < w) := by
    apply Finset.filter_congr
    intro t _
    rw [pulse_eq_some t chn p w hp]
    simp
  have hper : Function.Periodic (fun t => t % p < w) p := by
    intro t
    simp only [Nat.add_mod_right]
  rw [hpred, Nat.filter_Ico_card_eq_of_periodic t0 p _ hper, count_mod_lt p w hw]

theorem duty_cycle_witness :
    ((Finset.Ico 4294967290 (4294967290 + 5)).filter
      (fun t => pulse t false 5 2 = some true)).card = 2 :=
  duty_cycle 5 2 4294967290 false (by decide) (by decide) (by norm_num [uint32Size])

theorem add_mod_of_dvd (t L p : Nat) (h : p ∣ L) : (t + L) % p = t % p := by
  obtain ⟨k, rfl⟩ := h
  exact Nat.add_mul_mod_self_left t p k

/-- C14: the combined signal is periodic with the least common multiple of the
two periods: for all `per1, per2 > 0`, all pulse widths and every counter value
`t` with `t + lcm per1 per2 < 2 ^ 32`, `buzzer` with both readings at
`t + lcm per1 per2` performs the write (and leaves the channel values) it
performs with both readings at `t`, and it does perform one. -/
theorem buzzer_lcm_periodic (t pin per1 pw1 per2 pw2 : Nat) (st : Channels)
    (h1 : 0 < per1) (h2 : 0 < per2) (_ht : t + Nat.lcm per1 per2 < uint32Size) :
    buzzer (t + Nat.lcm per1 per2) (t + Nat.lcm per1 per2) st pin per1 pw1 per2 pw2 =
      buzzer t t st pin per1 pw1 per2 pw2 ∧
    ∃ st' wr, buzzer t t st pin per1 pw1 per2 pw2 = some (st', wr) ∧
      (buzzer (t + Nat.lcm per1 per2) (t + Nat.lcm per1 per2) st pin per1 pw1 per2
        pw2).map (fun r => r.2.level) = some wr.level := by
  have hbuzz : buzzer (t + Nat.lcm per1 per2) (t + Nat.lcm per1 per2) st pin per1 pw1
      per2 pw2 = buzzer t t st pin per1 pw1 per2 pw2 := by
    rw [buzzer_eq_some _ _ st pin per1 pw1 per2 pw2 h1 h2,
      buzzer_eq_some t t st pin per1 pw1 per2 pw2 h1 h2,
      add_mod_of_dvd t _ per1 (Nat.dvd_lcm_left per1 per2),
      add_mod_of_dvd t _ per2 (Nat.dvd_lcm_right per1 per2)]
  refine ⟨hbuzz, _, _, buzzer_eq_some t t st pin per1 pw1 per2 pw2 h1 h2, ?_⟩
  rw [hbuzz, buzzer_eq_some t t st pin per1 pw1 per2 pw2 h1 h2]
  rfl

theorem buzzer_lcm_periodic_witness :
    buzzer (760000 + Nat.lcm 250000 3000000) (760000 + Nat.lcm 250000 3000000)
        ⟨false, false⟩ 2 250000 50000 3000000 1000000 =
      buzzer 760000 760000 ⟨false, false⟩ 2 250000 50000 3000000 1000000 ∧
    ∃ st' wr, buzzer 760000 760000 ⟨false, false⟩ 2 250000 50000 3000000 1000000 =
        some (st', wr) ∧
      (buzzer (760000 + Nat.lcm 250000 3000000) (760000 + Nat.lcm 250000 3000000)
        ⟨false, false⟩ 2 250000 50000 3000000 1000000).map (fun r => r.2.level) =
          some wr.level :=
  buzzer_lcm_periodic 760000 2 250000 50000 3000000 1000000 ⟨false, false⟩ (by decide)
    (by decide) (by norm_num [uint32Size, Nat.lcm])

/-- C15: degenerate pulse widths saturate rather than fail: for every 32-bit
period `p > 0` and every 32-bit pulse width `w`, also outside `0 .. p`, `pulse`
yields a boolean at every counter value; it yields `true` at every 32-bit
counter value if and only if `w ≥ p`, and `false` at every 32-bit counter value
if and only if `w = 0`. -/
theorem pulse_saturates (p w : Nat) (chn : Bool) (hp : 0 < p) (hp32 : p < uint32Size)
    (_hw32 : w < uint32Size) :
    (∀ t, t < uint32Size → ∃ b, pulse t chn p w = some b) ∧
    ((∀ t, t < uint32Size → pulse t chn p w = some true) ↔ p ≤ w) ∧
    ((∀ t, t < uint32Size → pulse t chn p w = some false) ↔ w = 0) := by
  refine ⟨fun t _ => ⟨_, pulse_eq_some t chn p w hp⟩, ?_, ?_⟩
  · constructor
    · intro h
      have h1 := h (p - 1) (by omega)
      rw [pulse_eq_some _ chn p w hp, Nat.mod_eq_of_lt (by omega)] at h1
      simp at h1
      omega
    · intro h t _
      rw [pulse_eq_some t chn p w hp]
      have : t % p < w := Nat.lt_of_lt_of_le (Nat.mod_lt t hp) h
      simp [this]
  · constructor
    · intro h
      have h0 := h 0 (by norm_num [uint32Size])
      rw [pulse_eq_some 0 chn p w hp] at h0
      simp at h0
      exact h0
    · intro h t _
      subst h
      rw [pulse_eq_some t chn p 0 hp]
      simp

theorem pulse_saturates_witness :
    (∀ t, t < uint32Size → ∃ b, pulse t false 1000000 4000000000 = some b) ∧
    ((∀ t, t < uint32Size → pulse t false 1000000 4000000000 = some true) ↔
      1000000 ≤ 4000000000) ∧
    ((∀ t, t < uint32Size → pulse t false 1000000 4000000000 = some false) ↔
      4000000000 = 0) :=
  pulse_saturates 1000000 4000000000 false (by decide) (by norm_num [uint32Size])
    (by norm_num [uint32Size])

end PulseGenerator
